import Mathlib

/-!
Verification of the DPIA bot's document round-trip pipeline (`dpia_bot.py`).

The development shallowly embeds the pipeline's pure logic.  Effects of the
external libraries (python-docx, pandas, pypandoc, the Gemini client, and the
filesystem) are modelled by explicit "world" records that fix the outcome of
each external call: a parse either yields a parsed value or an exception, and
each write either succeeds or raises.  Exceptions are modelled with `Except`;
Python strings are Lean `String`s and the handful of Python string methods the
code uses (`split`, `join`, `strip`, `startswith`, `in`, negative indexing)
are re-implemented below with Python semantics.
-/

/-! ## Python string primitives -/

/-- `leadsWith p l` : the character list `p` is a leading segment of `l`
(Python `str.startswith`, on exploded strings). -/
def leadsWith : List Char → List Char → Bool
  | [], _ => true
  | _ :: _, [] => false
  | p :: ps, c :: cs => p == c && leadsWith ps cs

/-- `hasSub p l` : `p` occurs contiguously inside `l` (Python `p in l`). -/
def hasSub (p : List Char) : List Char → Bool
  | [] => p.isEmpty
  | c :: cs => leadsWith p (c :: cs) || hasSub p cs

/-- Python `pattern in s` substring test, on `String`s. -/
def strContainsB (s pat : String) : Bool := hasSub pat.toList s.toList

/-- Python `s.startswith(pre)`. -/
def pyStartsWith (s pre : String) : Bool := leadsWith pre.toList s.toList

/-- Python `s.endswith(suf)`. -/
def pyEndsWith (s suf : String) : Bool := leadsWith suf.toList.reverse s.toList.reverse

/-- The whitespace characters stripped by Python's `str.strip()`
(ASCII whitespace; exotic Unicode space code points are out of scope). -/
def pyIsSpace (c : Char) : Bool :=
  c == ' ' || c == '\t' || c == '\n' || c == '\r' || c == '\x0b' || c == '\x0c'

/-- Python `s.strip()` on exploded strings. -/
def pyStripL (l : List Char) : List Char :=
  ((l.dropWhile pyIsSpace).reverse.dropWhile pyIsSpace).reverse

/-- Python `s.strip()`. -/
def pyStrip (s : String) : String := String.mk (pyStripL s.toList)

/-- Last character of an exploded string (`s[-1]` when it exists). -/
def lastChar? : List Char → Option Char
  | [] => none
  | [c] => some c
  | _ :: c :: cs => lastChar? (c :: cs)

/-- Python `s.split(sep)` for a non-empty separator, on exploded strings:
splits at every non-overlapping occurrence of `sep`, scanning left to right,
keeping empty pieces (`"".split(sep) == ['']`). -/
def pySplitL (sep : List Char) : List Char → List (List Char)
  | [] => [[]]
  | c :: rest =>
    if sep ≠ [] ∧ leadsWith sep (c :: rest) = true then
      [] :: pySplitL sep (rest.drop (sep.length - 1))
    else
      match pySplitL sep rest with
      | [] => [[c]]
      | p :: ps => (c :: p) :: ps
termination_by l => l.length
decreasing_by
  · simp only [List.length_cons, List.length_drop]
    exact Nat.lt_succ_of_le (Nat.sub_le _ _)
  · simp

/-- Python `sep.join(parts)` on exploded strings. -/
def joinSepL (sep : List Char) : List (List Char) → List Char
  | [] => []
  | [x] => x
  | x :: y :: ys => x ++ sep ++ joinSepL sep (y :: ys)

/-- Python `s.split(sep)` on `String`s. -/
def pySplit (sep s : String) : List String :=
  (pySplitL sep.toList s.toList).map String.mk

/-- Python `sep.join(parts)` on `String`s. -/
def pyJoin (sep : String) (parts : List String) : String :=
  String.mk (joinSepL sep.toList (parts.map String.toList))

/-! ## Basic facts about the string primitives -/

theorem toList_mk (l : List Char) : (String.mk l).toList = l := rfl

theorem mk_toList (s : String) : String.mk s.toList = s := by cases s; rfl

theorem toList_append (a b : String) : (a ++ b).toList = a.toList ++ b.toList := by
  cases a; cases b; rfl

/-- `p` occurs contiguously inside `l`. -/
def InfixOf (p l : List Char) : Prop := ∃ u v, l = u ++ p ++ v

theorem leadsWith_iff (p l : List Char) : leadsWith p l = true ↔ ∃ t, l = p ++ t := by
  induction p generalizing l with
  | nil => simp [leadsWith]
  | cons a ps ih =>
    cases l with
    | nil => simp [leadsWith]
    | cons c cs =>
      simp only [leadsWith, Bool.and_eq_true, beq_iff_eq, ih]
      constructor
      · rintro ⟨rfl, t, rfl⟩; exact ⟨t, rfl⟩
      · rintro ⟨t, ht⟩
        cases ht
        exact ⟨rfl, t, rfl⟩

theorem infixOf_cons (p : List Char) (c : Char) (l : List Char) (h : InfixOf p l) :
    InfixOf p (c :: l) := by
  obtain ⟨u, v, rfl⟩ := h
  exact ⟨c :: u, v, rfl⟩

theorem infixOf_cons_cases (p : List Char) (c : Char) (l : List Char)
    (h : InfixOf p (c :: l)) : (∃ t, c :: l = p ++ t) ∨ InfixOf p l := by
  obtain ⟨u, v, hu⟩ := h
  cases u with
  | nil => exact Or.inl ⟨v, by simpa using hu⟩
  | cons a u' =>
    simp only [List.cons_append] at hu
    injection hu with h1 h2
    exact Or.inr ⟨u', v, h2⟩

theorem hasSub_iff (p l : List Char) : hasSub p l = true ↔ InfixOf p l := by
  induction l with
  | nil =>
    simp only [hasSub, List.isEmpty_iff, InfixOf]
    constructor
    · rintro rfl; exact ⟨[], [], rfl⟩
    · rintro ⟨u, v, huv⟩
      cases u <;> cases p <;> simp_all
  | cons c cs ih =>
    simp only [hasSub, Bool.or_eq_true, leadsWith_iff, ih]
    constructor
    · rintro (⟨t, ht⟩ | h)
      · exact ⟨[], t, by simpa using ht⟩
      · exact infixOf_cons _ _ _ h
    · intro h
      rcases infixOf_cons_cases _ _ _ h with h | h
      · exact Or.inl h
      · exact Or.inr h

theorem strContainsB_iff (s pat : String) :
    strContainsB s pat = true ↔ InfixOf pat.toList s.toList := hasSub_iff _ _

/-- `leadsWith` holds of any list extended on the right. -/
theorem leadsWith_append (p t : List Char) : leadsWith p (p ++ t) = true :=
  (leadsWith_iff _ _).mpr ⟨t, rfl⟩

/-- A string that is literally `pre ++ rest` starts with `pre`. -/
theorem pyStartsWith_append (pre rest : String) :
    pyStartsWith (pre ++ rest) pre = true := by
  unfold pyStartsWith
  rw [toList_append]
  exact leadsWith_append _ _

/-- A string that is literally `rest ++ suf` ends with `suf`. -/
theorem pyEndsWith_append (rest suf : String) :
    pyEndsWith (rest ++ suf) suf = true := by
  unfold pyEndsWith
  rw [toList_append, List.reverse_append]
  exact leadsWith_append _ _

/-- A string literally of the form `pre ++ rest` contains `pre`. -/
theorem strContainsB_append_left (pre rest : String) :
    strContainsB (pre ++ rest) pre = true := by
  rw [strContainsB_iff, toList_append]
  exact ⟨[], rest.toList, rfl⟩

/-! ## Extractor data model

`dpia_bot.convert_file_to_markdown` dispatches on the (already lower-cased)
file extension.  A parsed `.docx` document (python-docx `Document`) is a list
of styled paragraphs followed by a list of tables; a parsed workbook (pandas
`ExcelFile`) is a list of named sheets, each a header row of column labels
plus data rows whose cells may be missing (`NaN`, modelled as `none`). -/

structure Paragraph where
  styleName : String
  text : String
deriving DecidableEq, Repr

structure Table where
  rows : List (List String)
deriving DecidableEq, Repr

structure DocxDocument where
  paragraphs : List Paragraph
  tables : List Table
deriving DecidableEq, Repr

structure Sheet where
  name : String
  header : List String
  rows : List (List (Option String))
deriving DecidableEq, Repr

/-- Outcomes of the external parsing / reading calls made by
`convert_file_to_markdown` and `extract_text`; an `.error` means the library
call raised an exception carrying the given message. -/
structure FileWorld where
  docxParse : Except String DocxDocument
  excelParse : Except String (List Sheet)
  textRead : Except String String
deriving Repr

/-- `dpia_bot.extract_text`: reads the file; `FileNotFoundError` and any
other exception are caught and turn into the empty string. -/
def extract_text (read : Except String String) : String :=
  match read with
  | .ok t => t
  | .error _ => ""

/-- Heading level inferred by `convert_file_to_markdown` for a paragraph
whose style name starts with `"Heading"`: Python `int(para.style.name[-1])`,
falling back to 1 on `ValueError` and whenever the parsed level is outside
1–6. -/
def headingLevel (styleName : String) : Nat :=
  match lastChar? styleName.toList with
  | none => 1
  | some c =>
    if c.isDigit then
      if 1 ≤ c.toNat - '0'.toNat ∧ c.toNat - '0'.toNat ≤ 6 then c.toNat - '0'.toNat else 1
    else 1

/-- The markdown block emitted for a single `.docx` paragraph:
`"#" * level + " " + text` for headings, the bare text otherwise. -/
def renderPara (p : Paragraph) : String :=
  if pyStartsWith p.styleName "Heading" then
    String.mk (List.replicate (headingLevel p.styleName) '#') ++ " " ++ p.text
  else p.text

/-- The parts appended for one `.docx` table (`enumerate` index `idx`):
a bold caption, the first row as a markdown header row, a separator row
matching the header's cell count, then the remaining rows.  Accessing
`table.rows[0]` of a rowless table raises `IndexError`, modelled as
`.error`. -/
def tableParts (t : Table) (idx : Nat) : Except String (List String) :=
  match t.rows with
  | [] => .error "IndexError: list index out of range"
  | header :: rest =>
    .ok ([ "\n**Table " ++ toString (idx + 1) ++ "**",
           "| " ++ pyJoin " | " header ++ " |",
           "|" ++ String.join (List.replicate header.length " --- |") ]
         ++ rest.map (fun row => "| " ++ pyJoin " | " row ++ " |")
         ++ [""])

/-- All parts of the `--- Tables ---` section, table by table. -/
def tablesParts : List Table → Nat → Except String (List String)
  | [], _ => .ok []
  | t :: ts, i => do
    let a ← tableParts t i
    let b ← tablesParts ts (i + 1)
    .ok (a ++ b)

/-- The list of markdown parts built for a parsed `.docx` document (the
function joins them with `"\n\n"` on success). -/
def docxBody (doc : DocxDocument) : Except String (List String) :=
  let paraParts := doc.paragraphs.map renderPara
  match doc.tables with
  | [] => .ok paraParts
  | _ :: _ => do
    let tp ← tablesParts doc.tables 0
    .ok (paraParts ++ ("\n\n--- Tables ---" :: tp))

/-- The `.docx` branch of `convert_file_to_markdown`: any exception raised
while parsing the file or while building the parts is caught and becomes the
sentinel `"Error during DOCX conversion."`. -/
def convert_docx (parsed : Except String DocxDocument) : String :=
  match parsed with
  | .error _ => "Error during DOCX conversion."
  | .ok doc =>
    match docxBody doc with
    | .ok parts => pyJoin "\n\n" parts
    | .error _ => "Error during DOCX conversion."

/-- One data row after `df.fillna('')`: missing cells become empty strings. -/
def fillRow (r : List (Option String)) : List String := r.map (fun c => c.getD "")

/-- A single markdown grid row. -/
def renderRow (cells : List String) : String := "| " ++ pyJoin " | " cells ++ " |"

/-- Grid rendering of a sheet's dataframe, modelling the shape of pandas
`DataFrame.to_markdown(index=False)` (header row, separator row, data rows;
the external library's column padding is abstracted away). -/
def to_markdown (header : List String) (rows : List (List String)) : String :=
  pyJoin "\n" (renderRow header :: ("|" ++ String.join (List.replicate header.length "---|"))
    :: rows.map renderRow)

/-- The three markdown parts appended per sheet by the Excel branch. -/
def sheetParts (s : Sheet) : List String :=
  ["## Sheet: " ++ s.name ++ "\n", to_markdown s.header (s.rows.map fillRow), "\n"]

/-- All parts appended by the Excel branch, sheet by sheet in sheet order. -/
def excelParts (sheets : List Sheet) : List String :=
  List.flatten (sheets.map sheetParts)

/-- The `.xlsx`/`.xls` branch of `convert_file_to_markdown`: any exception
becomes the sentinel `"Error during Excel conversion."`. -/
def convert_excel (parsed : Except String (List Sheet)) : String :=
  match parsed with
  | .error _ => "Error during Excel conversion."
  | .ok sheets => pyJoin "\n" (excelParts sheets)

/-- `dpia_bot.convert_file_to_markdown`, dispatching on the lower-cased file
extension; unsupported extensions yield the empty string. -/
def convert_file_to_markdown (w : FileWorld) (ext : String) : String :=
  if ext = ".docx" then convert_docx w.docxParse
  else if ext = ".xlsx" ∨ ext = ".xls" then convert_excel w.excelParse
  else if ext = ".md" ∨ ext = ".txt" then extract_text w.textRead
  else ""

/-! ## Generation client -/

/-- `dpia_bot.generate_dpia_from_prompt`.  The external Gemini call is
modelled by `call`: `.error e` means `configure`/`generate_content`/the
`response.text` access raised an exception whose `str()` is `e`; `.ok t`
means the call returned a completion with text `t`.  An empty completion
yields the `"Error: ..."` sentinel; an exception is caught and wrapped into
the `"Error during Gemini API call: ..."` sentinel; otherwise the completion
text is returned unchanged. -/
def generate_dpia_from_prompt (fullPrompt apiKey : String) (call : Except String String) :
    String :=
  match call with
  | .error e => "Error during Gemini API call: " ++ e
  | .ok t =>
    if t = "" then
      "Error: Gemini API returned no text. The prompt might have been blocked or an issue occurred."
    else t

/-! ## Prompt builder -/

/-- Fixed instruction text of `construct_prompt_for_gemini` preceding the
reference region. -/
def promptPart1 : String :=
" \n<scenario> You are a highly skilled, medical device and data governance specialist. Your responses are audited and any mistakes will incur\nlarge financial penalties to the company, you must be 100% accurate. <scenario>\n\n<task> You are given a reference Data Protection Impact Assessment text (below) and the user has uploaded a file from a customer asking to fill \nout their DPIA template. You need to transfer the information from the reference into the new format. <task>\n\n<output> The output should be a complete markdown file preserving the original formatting of the doc uploaded completed and filled out with the DPIA information. \nIf there are areas where the reference text does NOT contain sufficient information to answer, list these in a seperate part of the output called clarifications in tags like so:\n<clarification> \n1. The customer DPIA has asked for a Disaster Recovery Plan at section [x.1] - this is not available in the reference DPIA. Please address\n</clarification>\n\n<constraints>\nThe completed DPIA should be as thorough as possible given the reference text, but MUST NOT contain any information that isn\x27t directly entailed from the reference. Preferably use VERBATIM SENTENCES from the reference to complete the customer text, remembering this is a Class 1 medical device and data security and claims are of the upmost importance to be 100% accurate at all times. If there is insufficient information use the clarification system where needed. Partial answers are permissible but leave a tag [partial - to be completed - see clarification X] at the end of answers which need further clarification to be filled out later by a human reviewer.\n<constraints>\n\n<additional_context>\nTORTUS is a Class 1 MHRA registered medical device that takes data security, governance and safety incredibly seriously.\n</additional_context>\n\n<reference_text>\nThis is our entire markdown formatted DPIA - use this as the reference: "

/-- Fixed instruction text between the reference region and the template
region. -/
def promptPart2 : String :=
"\n</reference_text>\n\n<customer_DPIA_template>\nThis is the customer DPIA we have recieved to fill out - it is a markdown conversion of either a docx or CSV file and needs to be returnned later in the pipeline in the same format, so preserve the markdown format while answering to enable this.\n"

/-- Fixed instruction text closing the template region. -/
def promptPart3 : String := "\n</customer_DPIA_template>\n "

/-- `dpia_bot.construct_prompt_for_gemini`: a pure f-string embedding the
reference text and the customer template markdown between fixed instruction
blocks (the long static `additional_context` paragraph is abridged; no claim
depends on the instruction wording). -/
def construct_prompt_for_gemini (reference_dpia_text customer_template_markdown : String) :
    String :=
  promptPart1 ++ reference_dpia_text ++ promptPart2 ++ customer_template_markdown ++ promptPart3

/-! ## Reverse converter

`dpia_bot.convert_markdown_to_original_format` writes files through four
distinct external channels (pypandoc, python-docx `save`, pandas
`ExcelWriter`, plain `open(...).write`).  `RenderWorld` fixes, per call
site, whether that write raises; `Artifact` records what a successful write
put on disk, so the returned log is the filesystem outcome. -/

/-- What a successful external write leaves at a path. -/
inductive Artifact where
  | pandocDocx (md : String) (usedStyleRef : Bool)
  | basicDocx (paras : List String)
  | excelGrid (grid : List (List String))
  | excelSheet (rows : List (List String))
  | textFile (content : String)
deriving DecidableEq, Repr

/-- Per-call-site outcomes of the external write operations (`true` = that
call raises). -/
structure RenderWorld where
  pandocFails : Bool
  docxSaveFails : Bool
  gridWriteFails : Bool
  sheetWriteFails : Bool
  plainExcelWriteFails : Bool
  directWriteFails : Bool
  errorTxtWriteFails : Bool
  styleRefUsable : Bool
deriving DecidableEq, Repr

/-- The paragraphs written by the Tier-2 python-docx fallback: the markdown
split on blank lines, keeping the chunks whose `strip()` is non-empty. -/
def fallbackParas (md : String) : List String :=
  (pySplit "\n\n" md).filter (fun t => !(pyStrip t == ""))

/-- Root part of `os.path.splitext`: everything before the extension, where
the extension starts at the last dot of the basename provided some earlier
basename character is not a dot. -/
def splitextRootL (cs : List Char) : List Char :=
  let revBase := cs.reverse.takeWhile (fun c => !(c == '/'))
  match revBase.dropWhile (fun c => !(c == '.')) with
  | [] => cs
  | _ :: before =>
    if before.any (fun c => !(c == '.')) then
      cs.take (cs.length - ((revBase.takeWhile (fun c => !(c == '.'))).length + 1))
    else cs

/-- `os.path.splitext(p)[0]`. -/
def splitextRoot (s : String) : String := String.mk (splitextRootL s.toList)

/-- `dpia_bot.get_file_extension`: `os.path.splitext(p)[1].lower()`. -/
def get_file_extension (p : String) : String :=
  String.mk ((p.toList.drop (splitextRootL p.toList).length).map Char.toLower)

/-- `os.path.basename`. -/
def pyBasename (s : String) : String :=
  String.mk (s.toList.reverse.takeWhile (fun c => !(c == '/'))).reverse

/-- The naive markdown-table gate of the Excel branch (Python
`"|---|---|:" in md or ("|" in md and "\n" in md)`). -/
def excelGateB (md : String) : Bool :=
  strContainsB md "|---|---|:" || (strContainsB md "|" && strContainsB md "\n")

/-- The naive grid: strip the markdown, split into lines, keep non-blank
lines, split each on the pipe character. -/
def naiveGrid (md : String) : List (List String) :=
  ((pySplit "\n" (pyStrip md)).filter (fun x => !(pyStrip x == ""))).map (fun x => pySplit "|" x)

/-- Banner prepended when the Excel branch degrades to a plain-text write. -/
def excelBannerText : String :=
  "This Excel file contains Markdown content that could not be fully converted to structured Excel data.\n\n"

/-- Terminal fallback of `convert_markdown_to_original_format`: write the
markdown to the `_conversion_error.txt` sibling of the requested output path.
This write itself is a plain `open(...).write` and is not inside any further
handler, so if it raises the exception propagates to the caller (`.error`). -/
def topLevelFallback (w : RenderWorld) (md out : String) :
    Except Unit (String × List (String × Artifact)) :=
  if w.errorTxtWriteFails then .error ()
  else
    let p := splitextRoot out ++ "_conversion_error.txt"
    .ok (p, [(p, .textFile md)])

/-- `dpia_bot.convert_markdown_to_original_format`.  Returns the produced
path plus the log of successful writes, or `.error` when an exception
escapes to the caller. -/
def convert_markdown_to_original_format (w : RenderWorld) (md ext out : String) :
    Except Unit (String × List (String × Artifact)) :=
  if ext = ".docx" then
    -- Tier 1: pypandoc with optional reference-doc; Tier 2 on any exception:
    -- python-docx writing the blank-line-split chunks; a Tier-2 exception
    -- reaches the top-level handler.
    if w.pandocFails = false then .ok (out, [(out, .pandocDocx md w.styleRefUsable)])
    else if w.docxSaveFails = false then .ok (out, [(out, .basicDocx (fallbackParas md))])
    else topLevelFallback w md out
  else if ext = ".xlsx" ∨ ext = ".xls" then
    -- Naive grid write behind the pipe gate; on exception a two-row fallback
    -- sheet; on a further exception a plain-text write of banner + markdown
    -- into the .xlsx-named file; only then the top-level handler.
    let sheetResult : Option (List (String × Artifact)) :=
      if excelGateB md then
        if w.gridWriteFails = false then some [(out, .excelGrid (naiveGrid md))]
        else if w.sheetWriteFails = false then
          some [(out, .excelSheet [["Markdown Content"], [md]])]
        else none
      else
        if w.sheetWriteFails = false then
          some [(out, .excelSheet [["Markdown Content"], [md]])]
        else none
    match sheetResult with
    | some log => .ok (out, log)
    | none =>
      if w.plainExcelWriteFails = false then
        .ok (out, [(out, .textFile (excelBannerText ++ md))])
      else topLevelFallback w md out
  else
    -- .md / .txt (and any other extension): write the markdown verbatim.
    if w.directWriteFails = false then .ok (out, [(out, .textFile md)])
    else topLevelFallback w md out

/-! ## Pipeline orchestrator (`dpia_bot.main`) -/

/-- The pipeline stages, in the order `main` executes them. -/
inductive Stage where
  | loadKey | loadRef | upload | convertToMd | buildPrompt | generate | convertBack | download
deriving DecidableEq, Repr

/-- Where (and how) a run of `main` ends. -/
inductive MainOutcome where
  | keyError
  | refEmpty
  | customerMissing
  | conversionFailed
  | generationFailed (msg : String)
  | finished (path : String)
deriving DecidableEq, Repr

/-- External inputs of one CLI run: credential lookup, reference file read,
existence of the customer file, its (module-constant) path, the parser
outcomes, the Gemini call outcome, and the write outcomes. -/
structure MainWorld where
  apiKey : Option String
  refRead : Except String String
  customerExists : Bool
  customerPath : String
  files : FileWorld
  geminiCall : Except String String
  render : RenderWorld
deriving Repr

/-- `dpia_bot.main`: sequences the stages, validating each result with the
same emptiness/substring checks as the Python code and stopping at the first
failure.  Returns the stages that actually executed and the outcome
(`.error` when `convert_markdown_to_original_format` raises, which `main`
does not catch). -/
def mainRun (w : MainWorld) : List Stage × Except Unit MainOutcome :=
  match w.apiKey with
  | none => ([.loadKey], .ok .keyError)
  | some key =>
    let ref := extract_text w.refRead
    if ref == "" then ([.loadKey, .loadRef], .ok .refEmpty)
    else if w.customerExists = false then
      ([.loadKey, .loadRef, .upload], .ok .customerMissing)
    else
      let ext := get_file_extension w.customerPath
      let conv := convert_file_to_markdown w.files ext
      if conv == "" || strContainsB conv "Error during" then
        ([.loadKey, .loadRef, .upload, .convertToMd], .ok .conversionFailed)
      else
        let prompt := construct_prompt_for_gemini ref conv
        let gen := generate_dpia_from_prompt prompt key w.geminiCall
        if strContainsB gen "Error during Gemini API call" ||
            strContainsB gen "Error: Gemini API returned no text" then
          ([.loadKey, .loadRef, .upload, .convertToMd, .buildPrompt, .generate],
           .ok (.generationFailed gen))
        else
          let outPath := splitextRoot (pyBasename w.customerPath) ++ "_completed" ++ ext
          match convert_markdown_to_original_format w.render gen ext outPath with
          | .error _ =>
            ([.loadKey, .loadRef, .upload, .convertToMd, .buildPrompt, .generate, .convertBack],
             .error ())
          | .ok (p, _) =>
            ([.loadKey, .loadRef, .upload, .convertToMd, .buildPrompt, .generate, .convertBack,
              .download], .ok (.finished p))

/-! ## Auxiliary lemmas for the claims -/

/-- `leadsWith` is stable under extending the scanned list on the right. -/
theorem leadsWith_mono (p q t : List Char) (h : leadsWith p q = true) :
    leadsWith p (q ++ t) = true := by
  obtain ⟨r, rfl⟩ := (leadsWith_iff _ _).mp h
  rw [List.append_assoc]
  exact leadsWith_append _ _

/-- `startswith` is stable under appending to the scanned string. -/
theorem pyStartsWith_mono (s pre t : String) (h : pyStartsWith s pre = true) :
    pyStartsWith (s ++ t) pre = true := by
  unfold pyStartsWith at *
  rw [toList_append]
  exact leadsWith_mono _ _ _ h

/-! ## C7 — generation client error handling -/

/-- C7: `generate_dpia_from_prompt` never raises past its boundary: an
exception from the underlying call is wrapped into a sentinel beginning
`"Error during "` and ending with the exception's message; an empty
completion becomes a sentinel beginning `"Error: "`; any other completion
is returned unchanged. -/
theorem c7_generation_sentinels (fullPrompt apiKey : String) (call : Except String String) :
    (∀ e, call = .error e →
       generate_dpia_from_prompt fullPrompt apiKey call = "Error during Gemini API call: " ++ e ∧
       pyStartsWith (generate_dpia_from_prompt fullPrompt apiKey call) "Error during " = true ∧
       pyEndsWith (generate_dpia_from_prompt fullPrompt apiKey call) e = true) ∧
    (call = .ok "" →
       pyStartsWith (generate_dpia_from_prompt fullPrompt apiKey call) "Error: " = true) ∧
    (∀ t, call = .ok t → t ≠ "" → generate_dpia_from_prompt fullPrompt apiKey call = t) := by
  refine ⟨?_, ?_, ?_⟩
  · rintro e rfl
    refine ⟨rfl, ?_, ?_⟩
    · show pyStartsWith ("Error during Gemini API call: " ++ e) "Error during " = true
      have h : pyStartsWith ("Error during Gemini API call: " : String) "Error during " = true := by
        decide
      exact pyStartsWith_mono _ _ _ h
    · exact pyEndsWith_append _ _
  · rintro rfl
    show pyStartsWith
      "Error: Gemini API returned no text. The prompt might have been blocked or an issue occurred."
      "Error: " = true
    decide
  · rintro t rfl ht
    simp [generate_dpia_from_prompt, ht]

/-- Witness for C7 at concrete inputs: a raised exception `"boom"` and an
empty completion. -/
theorem c7_generation_sentinels_witness :
    (generate_dpia_from_prompt "p" "k" (.error "boom") =
        "Error during Gemini API call: " ++ "boom" ∧
      pyStartsWith (generate_dpia_from_prompt "p" "k" (.error "boom")) "Error during " = true ∧
      pyEndsWith (generate_dpia_from_prompt "p" "k" (.error "boom")) "boom" = true) ∧
    pyStartsWith (generate_dpia_from_prompt "p" "k" (.ok "")) "Error: " = true ∧
    generate_dpia_from_prompt "p" "k" (.ok "done") = "done" :=
  ⟨(c7_generation_sentinels "p" "k" (.error "boom")).1 "boom" rfl,
   (c7_generation_sentinels "p" "k" (.ok "")).2.1 rfl,
   (c7_generation_sentinels "p" "k" (.ok "done")).2.2 "done" rfl (by decide)⟩

/-! ## C5 — heading classification for `.docx` paragraphs -/

/-- The inferred level is always within 1–6. -/
theorem headingLevel_bounds (styleName : String) :
    1 ≤ headingLevel styleName ∧ headingLevel styleName ≤ 6 := by
  unfold headingLevel
  cases lastChar? styleName.toList with
  | none => simp
  | some c =>
    by_cases hd : c.isDigit
    · simp only [hd, if_true]
      split
      · next hcond => omega
      · simp
    · simp [hd]

/-- C5: a paragraph is classified as a heading exactly when its style name
starts with `"Heading"`; the level is read from the style name's last
character, defaulting to 1 when that character is not a digit or encodes a
value outside 1–6; and a level-`k` heading renders as `k` `'#'` characters,
a space, and the paragraph text. -/
theorem c5_heading_classification (p : Paragraph) :
    (pyStartsWith p.styleName "Heading" = false → renderPara p = p.text) ∧
    (pyStartsWith p.styleName "Heading" = true →
      ∃ k, renderPara p = String.mk (List.replicate k '#') ++ " " ++ p.text ∧
        1 ≤ k ∧ k ≤ 6 ∧
        ∀ c, lastChar? p.styleName.toList = some c →
          (c.isDigit = true →
            (1 ≤ c.toNat - '0'.toNat ∧ c.toNat - '0'.toNat ≤ 6 →
              k = c.toNat - '0'.toNat) ∧
            (¬(1 ≤ c.toNat - '0'.toNat ∧ c.toNat - '0'.toNat ≤ 6) → k = 1)) ∧
          (c.isDigit = false → k = 1)) := by
  constructor
  · intro h
    simp [renderPara, h]
  · intro h
    refine ⟨headingLevel p.styleName, ?_, (headingLevel_bounds _).1, (headingLevel_bounds _).2,
      ?_⟩
    · simp [renderPara, h]
    · intro c hc
      constructor
      · intro hd
        constructor
        · intro hr
          unfold headingLevel
          rw [hc]
          simp only [hd, if_true]
          rw [if_pos hr]
        · intro hr
          unfold headingLevel
          rw [hc]
          simp only [hd, if_true]
          rw [if_neg hr]
      · intro hd
        unfold headingLevel
        rw [hc]
        simp [hd]

/-- Witness for C5 at the concrete style names `"Heading 3"` (level token 3),
`"Heading 9"` (out of range, defaults to 1), and `"Normal"` (not a heading).
-/
theorem c5_heading_classification_witness :
    renderPara ⟨"Heading 3", "Scope"⟩ = "### Scope" ∧
    renderPara ⟨"Heading 9", "Scope"⟩ = "# Scope" ∧
    renderPara ⟨"Normal", "Scope"⟩ = "Scope" := by
  have h3 := (c5_heading_classification ⟨"Heading 3", "Scope"⟩).2 (by decide)
  have h9 := (c5_heading_classification ⟨"Heading 9", "Scope"⟩).2 (by decide)
  have hn := (c5_heading_classification ⟨"Normal", "Scope"⟩).1 (by decide)
  refine ⟨?_, ?_, hn⟩
  · obtain ⟨k, hk, _, _, hlast⟩ := h3
    have hk3 : k = 3 :=
      (((hlast '3' (by decide)).1 (by decide)).1 (by decide)).trans (by decide)
    rw [hk3] at hk
    rw [hk]
    decide
  · obtain ⟨k, hk, _, _, hlast⟩ := h9
    have hk1 : k = 1 := ((hlast '9' (by decide)).1 (by decide)).2 (by decide)
    rw [hk1] at hk
    rw [hk]
    decide

/-! ## C10 — a rowless table aborts the whole DOCX extraction -/

/-- If some table in the list has no rows, building the table parts raises
(the code indexes `table.rows[0]`). -/
theorem tablesParts_error (ts : List Table) (i : Nat) (t : Table) (ht : t ∈ ts)
    (hrows : t.rows = []) : ∃ e, tablesParts ts i = .error e := by
  induction ts generalizing i with
  | nil => cases ht
  | cons a as ih =>
    cases ht with
    | head =>
      refine ⟨"IndexError: list index out of range", ?_⟩
      simp only [tablesParts, tableParts, hrows]
      rfl
    | tail _ hmem =>
      cases ha : a.rows with
      | nil =>
        refine ⟨"IndexError: list index out of range", ?_⟩
        simp only [tablesParts, tableParts, ha]
        rfl
      | cons r rs =>
        obtain ⟨e, he⟩ := ih hmem (i := i + 1)
        refine ⟨e, ?_⟩
        simp only [tablesParts, tableParts, ha, he]
        rfl

/-- C10: for a `.docx` input that parses to a document containing a table
with zero rows, the `table.rows[0]` access raises, the exception is caught
by the enclosing handler, and the whole extraction — paragraphs included —
is discarded in favour of the sentinel `"Error during DOCX conversion."`. -/
theorem c10_empty_table_discards_document (w : FileWorld) (doc : DocxDocument)
    (hparse : w.docxParse = .ok doc) (t : Table) (ht : t ∈ doc.tables)
    (hrows : t.rows = []) :
    convert_file_to_markdown w ".docx" = "Error during DOCX conversion." := by
  obtain ⟨e, he⟩ := tablesParts_error doc.tables 0 t ht hrows
  have hbody : docxBody doc = .error e := by
    unfold docxBody
    cases hdt : doc.tables with
    | nil => rw [hdt] at ht; cases ht
    | cons a as =>
      rw [hdt] at he
      simp only [hdt, he]
      rfl
  simp [convert_file_to_markdown, hparse, convert_docx, hbody]

/-- Witness for C10: a document with one paragraph and one rowless table. -/
theorem c10_empty_table_discards_document_witness :
    convert_file_to_markdown ⟨.ok ⟨[⟨"Normal", "hello"⟩], [⟨[]⟩]⟩, .error "x", .error "x"⟩
      ".docx" = "Error during DOCX conversion." :=
  c10_empty_table_discards_document _ ⟨[⟨"Normal", "hello"⟩], [⟨[]⟩]⟩ rfl ⟨[]⟩
    (by simp) rfl

/-! ## C3 — exception-to-sentinel conversion in the extractor -/

/-- A file world in which every external read/parse raises. -/
def fileWorldAllRaise : FileWorld := ⟨.error "boom", .error "boom", .error "boom"⟩

/-- C3 counterexample: for the supported plain-text formats the claim fails —
a read exception inside `extract_text` is caught and becomes the EMPTY
string, not a sentinel beginning `"Error during <format> conversion."`. -/
theorem c3_counterexample_plaintext :
    convert_file_to_markdown fileWorldAllRaise ".txt" = "" ∧
    pyStartsWith (convert_file_to_markdown fileWorldAllRaise ".txt") "Error during" = false := by
  constructor
  · rfl
  · decide

/-- C3 amended: a parse exception becomes the sentinel
`"Error during DOCX conversion."` for `.docx` and
`"Error during Excel conversion."` for `.xlsx`/`.xls`; for the plain-text
formats `.md`/`.txt` a read exception is caught inside `extract_text` and
becomes the empty string instead. -/
theorem c3_parse_exception_sentinels (w : FileWorld) :
    ((∃ e, w.docxParse = .error e) →
       convert_file_to_markdown w ".docx" = "Error during DOCX conversion.") ∧
    (∀ ext, (ext = ".xlsx" ∨ ext = ".xls") → (∃ e, w.excelParse = .error e) →
       convert_file_to_markdown w ext = "Error during Excel conversion.") ∧
    (∀ ext, (ext = ".md" ∨ ext = ".txt") → (∃ e, w.textRead = .error e) →
       convert_file_to_markdown w ext = "") := by
  refine ⟨?_, ?_, ?_⟩
  · rintro ⟨e, he⟩
    simp [convert_file_to_markdown, he, convert_docx]
  · rintro ext (rfl | rfl) ⟨e, he⟩ <;>
      simp [convert_file_to_markdown, he, convert_excel]
  · rintro ext (rfl | rfl) ⟨e, he⟩ <;>
      simp [convert_file_to_markdown, he, extract_text]

/-- Witness for C3 (amended) at a world where every parse raises. -/
theorem c3_parse_exception_sentinels_witness :
    convert_file_to_markdown fileWorldAllRaise ".docx" = "Error during DOCX conversion." ∧
    convert_file_to_markdown fileWorldAllRaise ".xls" = "Error during Excel conversion." ∧
    convert_file_to_markdown fileWorldAllRaise ".md" = "" :=
  ⟨(c3_parse_exception_sentinels fileWorldAllRaise).1 ⟨"boom", rfl⟩,
   (c3_parse_exception_sentinels fileWorldAllRaise).2.1 ".xls" (Or.inr rfl) ⟨"boom", rfl⟩,
   (c3_parse_exception_sentinels fileWorldAllRaise).2.2 ".md" (Or.inl rfl) ⟨"boom", rfl⟩⟩

/-! ## C6 — per-sheet section headers and empty-cell rendering -/

/-- A scan for a fixed leading segment fails as soon as the first characters
differ. -/
theorem leadsWith_cons_false (p c : Char) (ps cs : List Char) (h : (p == c) = false) :
    leadsWith (p :: ps) (c :: cs) = false := by
  simp [leadsWith, h]

/-- The grid rendering of a row starts with the two characters `"| "`. -/
theorem toList_renderRow (cells : List String) :
    ∃ rest, (renderRow cells).toList = '|' :: ' ' :: rest := by
  unfold renderRow
  rw [toList_append, toList_append, List.append_assoc]
  exact ⟨_, rfl⟩

/-- The grid rendering of a sheet's dataframe starts with a pipe character.
-/
theorem toList_to_markdown (header : List String) (rows : List (List String)) :
    ∃ rest, (to_markdown header rows).toList = '|' :: rest := by
  unfold to_markdown pyJoin
  obtain ⟨r, hr⟩ := toList_renderRow header
  simp only [List.map_cons, joinSepL, toList_mk, hr]
  exact ⟨_, rfl⟩

/-- A sheet's grid part is not mistaken for a section header. -/
theorem grid_not_header (header : List String) (rows : List (List String)) :
    pyStartsWith (to_markdown header rows) "## Sheet: " = false := by
  unfold pyStartsWith
  obtain ⟨rest, hr⟩ := toList_to_markdown header rows
  rw [hr]
  exact leadsWith_cons_false _ _ _ _ (by decide)

/-- A sheet's header part does start with `"## Sheet: "`. -/
theorem header_is_header (name : String) :
    pyStartsWith ("## Sheet: " ++ name ++ "\n") "## Sheet: " = true :=
  pyStartsWith_mono _ _ _ (pyStartsWith_append "## Sheet: " name)

/-- Replacing every missing cell of a sheet by an explicit empty-string cell
(the effect of `fillna('')` seen from the data side). -/
def noneToEmptySheet (s : Sheet) : Sheet :=
  ⟨s.name, s.header, s.rows.map (fun r => r.map (fun c => some (c.getD "")))⟩

/-- `fillna('')` renders a missing cell exactly like an empty-string cell. -/
theorem fillRow_noneToEmpty (r : List (Option String)) :
    fillRow (r.map (fun c => some (c.getD ""))) = fillRow r := by
  unfold fillRow
  rw [List.map_map]
  rfl

/-- C6: the Excel branch emits exactly one `"## Sheet: <name>"` section
header per sheet, in sheet order (first conjunct: the header-shaped parts of
the emitted parts list are precisely the S sheet headers in order), and
missing cells render exactly as empty-string cells, never as a null token
(second conjunct: the whole conversion is invariant under replacing every
missing cell by an explicit `""` cell). -/
theorem c6_sheet_sections (sheets : List Sheet) :
    (excelParts sheets).filter (fun part => pyStartsWith part "## Sheet: ") =
      sheets.map (fun s => "## Sheet: " ++ s.name ++ "\n") ∧
    convert_excel (.ok (sheets.map noneToEmptySheet)) = convert_excel (.ok sheets) := by
  constructor
  · induction sheets with
    | nil => simp [excelParts]
    | cons s ss ih =>
      have hparts : excelParts (s :: ss) = sheetParts s ++ excelParts ss := by
        simp [excelParts]
      rw [hparts, List.filter_append, ih]
      have h1 := header_is_header s.name
      have h2 := grid_not_header s.header (s.rows.map fillRow)
      have h3 : pyStartsWith "\n" "## Sheet: " = false := by decide
      simp [sheetParts, h1, h2, h3]
  · have hsheet : ∀ s : Sheet, sheetParts (noneToEmptySheet s) = sheetParts s := by
      intro s
      unfold sheetParts noneToEmptySheet
      simp only [List.map_map]
      have : s.rows.map (fillRow ∘ fun r => r.map (fun c => some (c.getD ""))) =
          s.rows.map fillRow := by
        apply List.map_congr_left
        intro r _
        exact fillRow_noneToEmpty r
      rw [this]
    have hparts : excelParts (sheets.map noneToEmptySheet) = excelParts sheets := by
      unfold excelParts
      rw [List.map_map]
      have : sheets.map (sheetParts ∘ noneToEmptySheet) = sheets.map sheetParts := by
        apply List.map_congr_left
        intro s _
        exact hsheet s
      rw [this]
    show convert_excel (Except.ok (sheets.map noneToEmptySheet)) =
      convert_excel (Except.ok sheets)
    simp only [convert_excel]
    rw [hparts]

/-! ## C8 — tabular reverse conversion fallbacks -/

/-- A render world in which every external write succeeds. -/
def renderWorldOk : RenderWorld := ⟨false, false, false, false, false, false, false, false⟩

/-- `renderWorldOk`, except that the naive-grid `ExcelWriter` write raises.
-/
def renderWorldGridFail : RenderWorld := { renderWorldOk with gridWriteFails := true }

/-- C8 counterexample: for the generated text `"hello"` (no pipe character)
with an `.xlsx` target, the function does NOT attempt the naive pipe split —
although the grid write would succeed in this world, it writes the two-row
fallback sheet directly, because the gate
`"|---|---|:" in md or ("|" in md and "\n" in md)` is false. -/
theorem c8_counterexample_no_pipe :
    convert_markdown_to_original_format renderWorldOk "hello" ".xlsx" "o.xlsx" =
      .ok ("o.xlsx", [("o.xlsx", .excelSheet [["Markdown Content"], ["hello"]])]) ∧
    renderWorldOk.gridWriteFails = false := by
  constructor
  · rfl
  · rfl

/-- C8 amended: only when the generated text passes the pipe gate (it
contains `"|---|---|:"`, or contains both a pipe and a newline) does the
Excel branch attempt the naive split of each line on the pipe character;
if that write raises it writes the two-row fallback sheet (literal label row
plus the raw text as one cell).  When the gate fails, the fallback sheet is
written directly without any split attempt. -/
theorem c8_tabular_fallbacks (w : RenderWorld) (md out : String) :
    (excelGateB md = true →
       (w.gridWriteFails = false →
          convert_markdown_to_original_format w md ".xlsx" out =
            .ok (out, [(out, .excelGrid (naiveGrid md))])) ∧
       (w.gridWriteFails = true → w.sheetWriteFails = false →
          convert_markdown_to_original_format w md ".xlsx" out =
            .ok (out, [(out, .excelSheet [["Markdown Content"], [md]])]))) ∧
    (excelGateB md = false → w.sheetWriteFails = false →
       convert_markdown_to_original_format w md ".xlsx" out =
         .ok (out, [(out, .excelSheet [["Markdown Content"], [md]])])) := by
  refine ⟨fun hgate => ⟨fun hgrid => ?_, fun hgrid hsheet => ?_⟩, fun hgate hsheet => ?_⟩
  · simp [convert_markdown_to_original_format, hgate, hgrid]
  · simp [convert_markdown_to_original_format, hgate, hgrid, hsheet]
  · simp [convert_markdown_to_original_format, hgate, hsheet]

/-- Witness for C8 (amended): a piped two-line text with the grid write
succeeding, the same text with the grid write raising, and a pipe-free text.
-/
theorem c8_tabular_fallbacks_witness :
    convert_markdown_to_original_format renderWorldOk "| a |\n| b |" ".xlsx" "o.xlsx" =
      .ok ("o.xlsx", [("o.xlsx", .excelGrid (naiveGrid "| a |\n| b |"))]) ∧
    convert_markdown_to_original_format renderWorldGridFail "| a |\n| b |" ".xlsx" "o.xlsx" =
      .ok ("o.xlsx", [("o.xlsx", .excelSheet [["Markdown Content"], ["| a |\n| b |"]])]) ∧
    convert_markdown_to_original_format renderWorldOk "plain" ".xlsx" "o.xlsx" =
      .ok ("o.xlsx", [("o.xlsx", .excelSheet [["Markdown Content"], ["plain"]])]) :=
  ⟨((c8_tabular_fallbacks renderWorldOk "| a |\n| b |" "o.xlsx").1 (by decide)).1 rfl,
   ((c8_tabular_fallbacks renderWorldGridFail "| a |\n| b |" "o.xlsx").1 (by decide)).2 rfl rfl,
   (c8_tabular_fallbacks renderWorldOk "plain" "o.xlsx").2 (by decide) rfl⟩

/-! ## C4 — generation failure halts before reverse conversion -/

/-- A prefix occurrence is in particular a substring occurrence. -/
theorem strContainsB_of_startsWith (s p : String) (h : pyStartsWith s p = true) :
    strContainsB s p = true := by
  rw [strContainsB_iff]
  obtain ⟨t, ht⟩ := (leadsWith_iff _ _).mp h
  exact ⟨[], t, by simpa using ht⟩

/-- When the Gemini call yields an empty completion or raises, the string
returned by the generation stage satisfies `main`'s failure test. -/
theorem generation_check_fires (call : Except String String)
    (h : call = .ok "" ∨ ∃ e, call = .error e) (p k : String) :
    (strContainsB (generate_dpia_from_prompt p k call) "Error during Gemini API call" ||
     strContainsB (generate_dpia_from_prompt p k call)
       "Error: Gemini API returned no text") = true := by
  rcases h with rfl | ⟨e, rfl⟩
  · have hg : generate_dpia_from_prompt p k (Except.ok "") =
        "Error: Gemini API returned no text. The prompt might have been blocked or an issue occurred." :=
      rfl
    rw [hg]
    decide
  · have h1 : pyStartsWith ("Error during Gemini API call: " ++ e)
        "Error during Gemini API call" = true :=
      pyStartsWith_mono "Error during Gemini API call: " "Error during Gemini API call" e
        (by decide)
    show (strContainsB ("Error during Gemini API call: " ++ e)
        "Error during Gemini API call" || _) = true
    rw [strContainsB_of_startsWith _ _ h1]
    simp

/-- Both generation sentinels start with `"Error"`. -/
theorem generation_sentinel_starts_error (call : Except String String)
    (h : call = .ok "" ∨ ∃ e, call = .error e) (p k : String) :
    pyStartsWith (generate_dpia_from_prompt p k call) "Error" = true := by
  rcases h with rfl | ⟨e, rfl⟩
  · have hg : generate_dpia_from_prompt p k (Except.ok "") =
        "Error: Gemini API returned no text. The prompt might have been blocked or an issue occurred." :=
      rfl
    rw [hg]
    decide
  · have hg : generate_dpia_from_prompt p k (Except.error e) =
        "Error during Gemini API call: " ++ e := rfl
    rw [hg]
    exact pyStartsWith_mono "Error during Gemini API call: " "Error" e (by decide)

/-- C4: when the generation stage returns a failure result (empty completion
or a raised call), `main` halts before ever invoking
`convert_markdown_to_original_format`, and if the run reached the generation
stage its outcome surfaces that stage's sentinel message. -/
theorem c4_generation_failure_halts (w : MainWorld)
    (h : w.geminiCall = .ok "" ∨ ∃ e, w.geminiCall = .error e) :
    Stage.convertBack ∉ (mainRun w).1 ∧
    (Stage.generate ∈ (mainRun w).1 →
      ∃ msg, (mainRun w).2 = .ok (.generationFailed msg) ∧
        (∃ p k, msg = generate_dpia_from_prompt p k w.geminiCall) ∧
        pyStartsWith msg "Error" = true) := by
  unfold mainRun
  rcases hak : w.apiKey with _ | key
  · exact ⟨by simp, by simp⟩
  · by_cases h1 : (extract_text w.refRead == "") = true
    · simp only [h1, if_true]
      exact ⟨by simp, by simp⟩
    · rw [Bool.not_eq_true] at h1
      simp only [h1, Bool.false_eq_true, if_false]
      by_cases h2 : w.customerExists = false
      · simp only [h2, if_true]
        exact ⟨by simp, by simp⟩
      · simp only [h2, if_false]
        by_cases h3 : (convert_file_to_markdown w.files (get_file_extension w.customerPath) == ""
            || strContainsB (convert_file_to_markdown w.files (get_file_extension w.customerPath))
              "Error during") = true
        · simp only [h3, if_true]
          exact ⟨by simp, by simp⟩
        · rw [Bool.not_eq_true] at h3
          simp only [h3, Bool.false_eq_true, if_false,
            generation_check_fires w.geminiCall h, if_true]
          refine ⟨by simp, fun _ => ⟨_, rfl, ⟨_, _, rfl⟩, ?_⟩⟩
          exact generation_sentinel_starts_error w.geminiCall h _ _

/-- A concrete run whose Gemini call returns an empty completion and whose
earlier stages all succeed. -/
def mainWorldC4 : MainWorld :=
  ⟨some "k", .ok "ref", true, "customer_template.docx",
   ⟨.ok ⟨[⟨"Normal", "What data is retained?"⟩], []⟩, .error "x", .error "x"⟩,
   .ok "", renderWorldOk⟩

/-- Witness for C4 at `mainWorldC4` (empty completion). -/
theorem c4_generation_failure_halts_witness :
    Stage.convertBack ∉ (mainRun mainWorldC4).1 ∧
    (Stage.generate ∈ (mainRun mainWorldC4).1 →
      ∃ msg, (mainRun mainWorldC4).2 = .ok (.generationFailed msg) ∧
        (∃ p k, msg = generate_dpia_from_prompt p k mainWorldC4.geminiCall) ∧
        pyStartsWith msg "Error" = true) :=
  c4_generation_failure_halts mainWorldC4 (Or.inl rfl)

/-! ## C9 — the extraction-failure check is a pure substring test -/

/-- C9: whenever the markdown produced by the conversion stage contains the
substring `"Error during"` anywhere — regardless of whether the conversion
actually failed — `main` treats the extraction as failed: the run ends with
`conversionFailed`, and neither the prompt builder, the generator, nor the
reverse converter ever executes. -/
theorem c9_substring_check_halts (w : MainWorld) (key : String)
    (hkey : w.apiKey = some key)
    (href : (extract_text w.refRead == "") = false)
    (hcust : w.customerExists = true)
    (hconv : strContainsB
        (convert_file_to_markdown w.files (get_file_extension w.customerPath))
        "Error during" = true) :
    (mainRun w).2 = .ok .conversionFailed ∧
    Stage.buildPrompt ∉ (mainRun w).1 ∧
    Stage.generate ∉ (mainRun w).1 ∧
    Stage.convertBack ∉ (mainRun w).1 := by
  unfold mainRun
  rw [hkey]
  simp only [href, Bool.false_eq_true, if_false, hcust, if_true]
  have hcond : (convert_file_to_markdown w.files (get_file_extension w.customerPath) == ""
      || strContainsB (convert_file_to_markdown w.files (get_file_extension w.customerPath))
        "Error during") = true := by
    rw [hconv]
    simp
  simp only [hcond, if_true]
  refine ⟨rfl, by simp, by simp, by simp⟩

/-- A concrete run whose customer document extracts successfully to a
paragraph that happens to contain the words `"Error during"`. -/
def mainWorldC9 : MainWorld :=
  ⟨some "k", .ok "ref", true, "customer_template.docx",
   ⟨.ok ⟨[⟨"Normal", "Describe what happened: Error during maintenance, data was lost."⟩], []⟩,
    .error "x", .error "x"⟩,
   .ok "completed text", renderWorldOk⟩

/-- Witness for C9 at `mainWorldC9`: the `.docx` parse succeeds and the
extracted markdown is the paragraph text itself, yet the job halts at the
conversion stage. -/
theorem c9_substring_check_halts_witness :
    (mainRun mainWorldC9).2 = .ok .conversionFailed ∧
    Stage.buildPrompt ∉ (mainRun mainWorldC9).1 ∧
    Stage.generate ∉ (mainRun mainWorldC9).1 ∧
    Stage.convertBack ∉ (mainRun mainWorldC9).1 :=
  c9_substring_check_halts mainWorldC9 "k" rfl (by decide) rfl (by decide)

/-! ## C1 — the reverse-conversion fallback ladder -/

/-- A render world in which every external write raises, including the
terminal plain-text sibling write. -/
def renderWorldAllFail : RenderWorld := ⟨true, true, true, true, true, true, true, false⟩

/-- C1 counterexample: when the Tier-1 pandoc call, the Tier-2 python-docx
save, and the terminal sibling-file write all raise (e.g. the target
directory is unwritable, the very situation the terminal fallback is meant
for), `convert_markdown_to_original_format` raises to its caller instead of
returning a path. -/
theorem c1_counterexample_raises :
    convert_markdown_to_original_format renderWorldAllFail "content" ".docx" "out.docx" =
      .error () := rfl

/-- The forms in which a written artifact preserves the generated text. -/
def recoversContent : Artifact → String → Prop
  | .pandocDocx m _, md => m = md
  | .basicDocx ps, md => ps = fallbackParas md
  | .excelGrid g, md => g = naiveGrid md
  | .excelSheet rows, md => rows = [["Markdown Content"], [md]]
  | .textFile c, md => c = md ∨ c = excelBannerText ++ md

/-- C1 amended: provided the terminal sibling-file write itself succeeds,
`convert_markdown_to_original_format` never raises: for every generated text
and every target extension it returns a path — the requested output path, or
the `_conversion_error.txt` sibling — at which some artifact preserving the
given text was written. -/
theorem c1_render_fallback_ladder (w : RenderWorld) (md ext out : String)
    (hw : w.errorTxtWriteFails = false) :
    ∃ p log, convert_markdown_to_original_format w md ext out = .ok (p, log) ∧
      (p = out ∨ (p = splitextRoot out ++ "_conversion_error.txt" ∧
        pyEndsWith p "_conversion_error.txt" = true)) ∧
      ∃ a, (p, a) ∈ log ∧ recoversContent a md := by
  obtain ⟨pf, dsf, gwf, swf, pewf, dwf, etwf, sru⟩ := w
  simp only at hw
  subst hw
  by_cases hd : ext = ".docx"
  · subst hd
    cases pf
    · exact ⟨out, _, rfl, Or.inl rfl, .pandocDocx md sru, by simp, rfl⟩
    · cases dsf
      · exact ⟨out, _, rfl, Or.inl rfl, .basicDocx (fallbackParas md), by simp, rfl⟩
      · exact ⟨_, _, rfl, Or.inr ⟨rfl, pyEndsWith_append _ _⟩, .textFile md, by simp,
          Or.inl rfl⟩
  · by_cases hx : ext = ".xlsx" ∨ ext = ".xls"
    · rcases hx with rfl | rfl <;>
      · by_cases hg : excelGateB md = true
        · cases gwf
          · refine ⟨out, [(out, .excelGrid (naiveGrid md))], ?_, Or.inl rfl,
              .excelGrid (naiveGrid md), ?_, rfl⟩
            · simp [convert_markdown_to_original_format, hg]
            · simp
          · cases swf
            · refine ⟨out, [(out, .excelSheet [["Markdown Content"], [md]])], ?_, Or.inl rfl,
                .excelSheet [["Markdown Content"], [md]], ?_, rfl⟩
              · simp [convert_markdown_to_original_format, hg]
              · simp
            · cases pewf
              · refine ⟨out, [(out, .textFile (excelBannerText ++ md))], ?_, Or.inl rfl,
                  .textFile (excelBannerText ++ md), ?_, Or.inr rfl⟩
                · simp [convert_markdown_to_original_format, hg]
                · simp
              · refine ⟨splitextRoot out ++ "_conversion_error.txt",
                  [(splitextRoot out ++ "_conversion_error.txt", .textFile md)], ?_,
                  Or.inr ⟨rfl, pyEndsWith_append _ _⟩, .textFile md, ?_, Or.inl rfl⟩
                · simp [convert_markdown_to_original_format, hg, topLevelFallback]
                · simp
        · rw [Bool.not_eq_true] at hg
          cases swf
          · refine ⟨out, [(out, .excelSheet [["Markdown Content"], [md]])], ?_, Or.inl rfl,
              .excelSheet [["Markdown Content"], [md]], ?_, rfl⟩
            · simp [convert_markdown_to_original_format, hg]
            · simp
          · cases pewf
            · refine ⟨out, [(out, .textFile (excelBannerText ++ md))], ?_, Or.inl rfl,
                .textFile (excelBannerText ++ md), ?_, Or.inr rfl⟩
              · simp [convert_markdown_to_original_format, hg]
              · simp
            · refine ⟨splitextRoot out ++ "_conversion_error.txt",
                [(splitextRoot out ++ "_conversion_error.txt", .textFile md)], ?_,
                Or.inr ⟨rfl, pyEndsWith_append _ _⟩, .textFile md, ?_, Or.inl rfl⟩
              · simp [convert_markdown_to_original_format, hg, topLevelFallback]
              · simp
    · unfold convert_markdown_to_original_format
      rw [if_neg hd, if_neg hx]
      cases dwf
      · exact ⟨out, _, rfl, Or.inl rfl, .textFile md, by simp, Or.inl rfl⟩
      · exact ⟨_, _, rfl, Or.inr ⟨rfl, pyEndsWith_append _ _⟩, .textFile md, by simp,
          Or.inl rfl⟩

/-- Witness for C1 (amended): pandoc and the python-docx save both raise but
the sibling write succeeds, so a path is still produced. -/
theorem c1_render_fallback_ladder_witness :
    ∃ p log, convert_markdown_to_original_format ⟨true, true, true, true, true, true, false,
        false⟩ "body" ".docx" "out.docx" = .ok (p, log) ∧
      (p = "out.docx" ∨ (p = splitextRoot "out.docx" ++ "_conversion_error.txt" ∧
        pyEndsWith p "_conversion_error.txt" = true)) ∧
      ∃ a, (p, a) ∈ log ∧ recoversContent a "body" :=
  c1_render_fallback_ladder ⟨true, true, true, true, true, true, false, false⟩ "body"
    ".docx" "out.docx" rfl

/-! ## C2 — round-trip through the Tier-2 paragraph fallback

The blank-line separator used both by the `.docx` extractor (`"\n\n".join`)
and by the Tier-2 fallback (`split('\n\n')`). -/

/-- The exploded blank-line separator. -/
def nlnl : List Char := ['\n', '\n']

theorem toList_nlnl : ("\n\n" : String).toList = nlnl := rfl

theorem lastChar?_cons_cons (a b : Char) (l : List Char) :
    lastChar? (a :: b :: l) = lastChar? (b :: l) := rfl

theorem lastChar?_cons_ne_nil (y : Char) (l : List Char) (hl : l ≠ []) :
    lastChar? (y :: l) = lastChar? l := by
  cases l with
  | nil => cases hl rfl
  | cons z zs => rfl

theorem lastChar?_append (a b : List Char) (hb : b ≠ []) :
    lastChar? (a ++ b) = lastChar? b := by
  induction a with
  | nil => rfl
  | cons x a' ih =>
    rw [List.cons_append, lastChar?_cons_ne_nil x (a' ++ b), ih]
    intro h
    exact hb (List.append_eq_nil.mp h).2

/-- Splitting a string with no separator occurrence yields the whole string.
-/
theorem pySplitL_no_sep (s : List Char) (h : ¬ InfixOf nlnl s) :
    pySplitL nlnl s = [s] := by
  induction s with
  | nil => simp [pySplitL]
  | cons c cs ih =>
    have hpre : ¬ (nlnl ≠ [] ∧ leadsWith nlnl (c :: cs) = true) := by
      rintro ⟨-, hlw⟩
      obtain ⟨t, ht⟩ := (leadsWith_iff _ _).mp hlw
      exact h ⟨[], t, by simpa using ht⟩
    rw [pySplitL, if_neg hpre, ih (fun hin => h (infixOf_cons _ _ _ hin))]

/-- Splitting `x ++ "\n\n" ++ r` when `x` contains no blank line and does
not end with a newline: the first piece is exactly `x`. -/
theorem pySplitL_boundary (x r : List Char) (hx : ¬ InfixOf nlnl x)
    (hlast : lastChar? x ≠ some '\n') :
    pySplitL nlnl (x ++ nlnl ++ r) = x :: pySplitL nlnl r := by
  induction x with
  | nil =>
    show pySplitL nlnl ('\n' :: '\n' :: r) = [] :: pySplitL nlnl r
    rw [pySplitL, if_pos ⟨by simp [nlnl], by simp [nlnl, leadsWith]⟩]
    simp [nlnl]
  | cons c x' ih =>
    show pySplitL nlnl (c :: (x' ++ nlnl ++ r)) = (c :: x') :: pySplitL nlnl r
    have hcond : ¬ (nlnl ≠ [] ∧ leadsWith nlnl (c :: (x' ++ nlnl ++ r)) = true) := by
      rintro ⟨-, hlw⟩
      cases x' with
      | nil =>
        have hc : c = '\n' := by
          simp only [nlnl, leadsWith, Bool.and_eq_true, beq_iff_eq] at hlw
          exact hlw.1.symm
        exact hlast (by simp [hc, lastChar?])
      | cons d x'' =>
        simp only [nlnl, List.cons_append, leadsWith, Bool.and_eq_true, beq_iff_eq] at hlw
        refine hx ⟨[], x'', ?_⟩
        simp [nlnl, ← hlw.1, ← hlw.2.1]
    rw [pySplitL, if_neg hcond]
    have hx' : ¬ InfixOf nlnl x' := fun hin => hx (infixOf_cons _ _ _ hin)
    have hlast' : lastChar? x' ≠ some '\n' := by
      cases x' with
      | nil => simp [lastChar?]
      | cons d x'' =>
        rw [← lastChar?_cons_cons c d x'']
        exact hlast
    rw [ih hx' hlast']

/-- Splitting the blank-line join of pieces that each contain no blank line
and do not end with a newline recovers the pieces exactly. -/
theorem pySplitL_joinSepL (xs : List (List Char))
    (hxs : ∀ x ∈ xs, ¬ InfixOf nlnl x ∧ lastChar? x ≠ some '\n') (hne : xs ≠ []) :
    pySplitL nlnl (joinSepL nlnl xs) = xs := by
  induction xs with
  | nil => cases hne rfl
  | cons x ys ih =>
    cases ys with
    | nil =>
      show pySplitL nlnl (joinSepL nlnl [x]) = [x]
      rw [joinSepL, pySplitL_no_sep x (hxs x (by simp)).1]
    | cons y ys' =>
      show pySplitL nlnl (joinSepL nlnl (x :: y :: ys')) = x :: y :: ys'
      rw [joinSepL,
        pySplitL_boundary x _ (hxs x (by simp)).1 (hxs x (by simp)).2,
        ih (fun z hz => hxs z (by simp [hz])) (by simp)]

/-- Splitting the blank-line join of well-behaved pieces followed by an
arbitrary non-empty tail: the pieces come off the front and the tail is
split on its own. -/
theorem pySplitL_join_append (xs : List (List Char)) (z : List Char)
    (zs : List (List Char))
    (hxs : ∀ x ∈ xs, ¬ InfixOf nlnl x ∧ lastChar? x ≠ some '\n') :
    pySplitL nlnl (joinSepL nlnl (xs ++ z :: zs)) =
      xs ++ pySplitL nlnl (joinSepL nlnl (z :: zs)) := by
  induction xs with
  | nil => simp
  | cons x xs' ih =>
    have hjoin : joinSepL nlnl ((x :: xs') ++ z :: zs) =
        x ++ nlnl ++ joinSepL nlnl (xs' ++ z :: zs) := by
      cases xs' <;> simp [joinSepL]
    rw [hjoin, pySplitL_boundary x _ (hxs x (by simp)).1 (hxs x (by simp)).2,
      ih (fun w hw => hxs w (by simp [hw]))]
    simp

/-- Rebuilding strings after exploding them is the identity. -/
theorem map_mk_map_toList (l : List String) :
    (l.map String.toList).map String.mk = l := by
  rw [List.map_map]
  have : (String.mk ∘ String.toList) = id := by
    funext s
    exact mk_toList s
  rw [this, List.map_id]

/-- String-level version of `pySplitL_joinSepL` composed with the non-blank
filter of the Tier-2 fallback. -/
theorem fallbackParas_pyJoin (parts : List String)
    (hgood : ∀ s ∈ parts, ¬ InfixOf nlnl s.toList ∧ lastChar? s.toList ≠ some '\n')
    (hne : parts ≠ []) :
    fallbackParas (pyJoin "\n\n" parts) = parts.filter (fun t => !(pyStrip t == "")) := by
  unfold fallbackParas pySplit pyJoin
  rw [toList_nlnl, toList_mk,
    pySplitL_joinSepL (parts.map String.toList)
      (by
        intro x hx
        obtain ⟨s, hs, rfl⟩ := List.mem_map.mp hx
        exact hgood s hs)
      (by simpa using hne),
    map_mk_map_toList]

/-- String-level version of `pySplitL_join_append` composed with the
non-blank filter. -/
theorem fallbackParas_pyJoin_append (parts : List String) (z : String) (zs : List String)
    (hgood : ∀ s ∈ parts, ¬ InfixOf nlnl s.toList ∧ lastChar? s.toList ≠ some '\n') :
    fallbackParas (pyJoin "\n\n" (parts ++ z :: zs)) =
      parts.filter (fun t => !(pyStrip t == "")) ++
        fallbackParas (pyJoin "\n\n" (z :: zs)) := by
  unfold fallbackParas pySplit pyJoin
  rw [toList_nlnl, toList_mk, List.map_append, List.map_cons,
    pySplitL_join_append (parts.map String.toList) z.toList (zs.map String.toList)
      (by
        intro x hx
        obtain ⟨s, hs, rfl⟩ := List.mem_map.mp hx
        exact hgood s hs),
    List.map_append, map_mk_map_toList, List.filter_append]
  rfl

/-- A blank-line occurrence cannot start inside a newline-free prefix. -/
theorem infixOf_nlnl_append (pre t : List Char) (hpre : ∀ c ∈ pre, c ≠ '\n')
    (ht : ¬ InfixOf nlnl t) : ¬ InfixOf nlnl (pre ++ t) := by
  induction pre with
  | nil => simpa using ht
  | cons c pre' ih =>
    intro hin
    rw [List.cons_append] at hin
    rcases infixOf_cons_cases _ _ _ hin with ⟨tt, htt⟩ | hin'
    · have hc : c = '\n' := by
        have h2 : List.head? (c :: (pre' ++ t)) = List.head? (nlnl ++ tt) := by rw [htt]
        simpa [nlnl] using h2
      exact hpre c (by simp) hc
    · exact ih (fun d hd => hpre d (by simp [hd])) hin'

/-- The rendering of a paragraph explodes to a newline-free prefix followed
by the paragraph's own text. -/
theorem toList_renderPara (p : Paragraph) :
    ∃ u, (renderPara p).toList = u ++ p.text.toList ∧ ∀ c ∈ u, c ≠ '\n' := by
  unfold renderPara
  by_cases h : pyStartsWith p.styleName "Heading" = true
  · rw [if_pos h]
    refine ⟨List.replicate (headingLevel p.styleName) '#' ++ [' '], ?_, ?_⟩
    · rw [toList_append, toList_append, toList_mk]
      rfl
    · intro c hc
      rcases List.mem_append.mp hc with hc | hc
      · rw [List.eq_of_mem_replicate hc]
        decide
      · rw [List.mem_singleton.mp hc]
        decide
  · rw [if_neg h]
    exact ⟨[], by simp, by simp⟩

/-- The last character of a non-empty scan is one of its characters. -/
theorem lastChar?_mem (l : List Char) (c : Char) (h : lastChar? l = some c) : c ∈ l := by
  induction l with
  | nil => cases h
  | cons a l' ih =>
    cases l' with
    | nil =>
      have ha : a = c := by injection h
      simp [ha]
    | cons b l'' =>
      rw [lastChar?_cons_cons] at h
      exact List.mem_cons_of_mem a (ih h)

/-- A paragraph whose text has no blank line and no trailing newline renders
to a part with the same two properties. -/
theorem renderPara_good (p : Paragraph) (htext : ¬ InfixOf nlnl p.text.toList)
    (hlast : lastChar? p.text.toList ≠ some '\n') :
    ¬ InfixOf nlnl (renderPara p).toList ∧ lastChar? (renderPara p).toList ≠ some '\n' := by
  obtain ⟨u, hu, hnl⟩ := toList_renderPara p
  rw [hu]
  constructor
  · exact infixOf_nlnl_append u p.text.toList hnl htext
  · cases hte : p.text.toList with
    | nil =>
      rw [List.append_nil]
      intro hx
      exact hnl '\n' (lastChar?_mem u '\n' hx) rfl
    | cons a l =>
      rw [lastChar?_append u (a :: l) (by simp)]
      rw [hte] at hlast
      exact hlast

/-- A non-space character survives `dropWhile` of spaces. -/
theorem mem_dropWhile (l : List Char) (c : Char) (hc : c ∈ l) (hs : pyIsSpace c = false) :
    c ∈ l.dropWhile pyIsSpace := by
  induction l with
  | nil => cases hc
  | cons a l' ih =>
    cases ha : pyIsSpace a
    · simpa [List.dropWhile_cons, ha] using hc
    · rcases List.mem_cons.mp hc with rfl | hc'
      · rw [ha] at hs; cases hs
      · simpa [List.dropWhile_cons, ha] using ih hc'

/-- A list containing a non-space character does not strip to nothing. -/
theorem pyStripL_ne_nil (l : List Char) (c : Char) (hc : c ∈ l) (hs : pyIsSpace c = false) :
    pyStripL l ≠ [] := by
  unfold pyStripL
  intro h
  have h1 := mem_dropWhile l c hc hs
  have h2 : c ∈ (l.dropWhile pyIsSpace).reverse := List.mem_reverse.mpr h1
  have h3 := mem_dropWhile _ c h2 hs
  have h4 : (l.dropWhile pyIsSpace).reverse.dropWhile pyIsSpace = [] := by
    have h5 := congrArg List.reverse h
    simpa using h5
  rw [h4] at h3
  cases h3

/-- Strings whose strip is non-empty, as the Boolean filter used by the
fallback. -/
theorem nonblank_of_ne (s : String) (h : pyStrip s ≠ "") : (!(pyStrip s == "")) = true := by
  simp [h]

/-- A source paragraph with non-blank text renders to a non-blank part. -/
theorem renderPara_nonblank (p : Paragraph) (hp : (!(pyStrip p.text == "")) = true) :
    (!(pyStrip (renderPara p) == "")) = true := by
  unfold renderPara
  by_cases h : pyStartsWith p.styleName "Heading" = true
  · rw [if_pos h]
    have hk := (headingLevel_bounds p.styleName).1
    have hmem : '#' ∈ (String.mk (List.replicate (headingLevel p.styleName) '#') ++ " "
        ++ p.text).toList := by
      rw [toList_append, toList_append, toList_mk]
      exact List.mem_append.mpr (Or.inl (List.mem_append.mpr
        (Or.inl (List.mem_replicate.mpr ⟨by omega, rfl⟩))))
    have hne := pyStripL_ne_nil _ '#' hmem (by decide)
    apply nonblank_of_ne
    intro heq
    apply hne
    have := congrArg String.data heq
    simpa [pyStrip] using this
  · rw [if_neg h]
    exact hp

/-- Filtering commutes with mapping in the usual way. -/
theorem filter_map_comm {α β : Type} (f : α → β) (q : β → Bool) (l : List α) :
    (l.map f).filter q = (l.filter (fun a => q (f a))).map f := by
  induction l with
  | nil => rfl
  | cons a l ih =>
    simp only [List.map_cons, List.filter_cons]
    cases hq : q (f a) <;> simp [hq, ih]

/-- A stricter filter produces a sublist of a weaker filter, mapped. -/
theorem filter_mono_map_sublist {α β : Type} (f g : α → Bool) (r : α → β) (l : List α)
    (h : ∀ a ∈ l, f a = true → g a = true) :
    List.Sublist ((l.filter f).map r) ((l.filter g).map r) := by
  induction l with
  | nil => simp
  | cons a l ih =>
    have ih' := ih (fun x hx => h x (by simp [hx]))
    cases hf : f a
    · cases hg : g a
      · simpa [List.filter_cons, hf, hg] using ih'
      · simp only [List.filter_cons, hf, hg]
        simpa using ih'.cons (r a)
    · have hg : g a = true := h a (by simp) hf
      simp only [List.filter_cons, hf, hg]
      simpa using ih'.cons₂ (r a)

/-- When every table has at least one row, the table-section parts build
without an exception. -/
theorem tablesParts_ok (ts : List Table) (i : Nat) (h : ∀ t ∈ ts, t.rows ≠ []) :
    ∃ tps, tablesParts ts i = .ok tps := by
  induction ts generalizing i with
  | nil => exact ⟨[], rfl⟩
  | cons a as ih =>
    cases ha : a.rows with
    | nil => cases h a (by simp) ha
    | cons r rs =>
      obtain ⟨tps, htps⟩ := ih (i + 1) (fun t ht => h t (by simp [ht]))
      refine ⟨([ "\n**Table " ++ toString (i + 1) ++ "**",
           "| " ++ pyJoin " | " r ++ " |",
           "|" ++ String.join (List.replicate r.length " --- |") ]
         ++ rs.map (fun row => "| " ++ pyJoin " | " row ++ " |")
         ++ [""]) ++ tps, ?_⟩
      simp only [tablesParts, tableParts, ha, htps]
      rfl

/-- C2 counterexample: a document with a single non-empty (whitespace-only)
paragraph round-trips to ZERO paragraphs — the Tier-2 fallback drops blank
chunks, so the textual content of this non-empty source paragraph is not
preserved. -/
theorem c2_counterexample_blank_paragraph :
    (DocxDocument.mk [⟨"Normal", " "⟩] []).paragraphs.map Paragraph.text = [" "] ∧
    fallbackParas (convert_file_to_markdown
      ⟨.ok ⟨[⟨"Normal", " "⟩], []⟩, .error "x", .error "x"⟩ ".docx") = [] := by
  constructor
  · rfl
  · have hmd : convert_file_to_markdown
        ⟨.ok ⟨[⟨"Normal", " "⟩], []⟩, .error "x", .error "x"⟩ ".docx" = " " := rfl
    rw [hmd]
    unfold fallbackParas pySplit
    rw [toList_nlnl]
    have hni : ¬ InfixOf nlnl (" " : String).toList := by
      intro hin
      have hcontra := (hasSub_iff nlnl (" " : String).toList).mpr hin
      have hfalse : hasSub nlnl (" " : String).toList = false := by decide
      rw [hfalse] at hcontra
      cases hcontra
    rw [pySplitL_no_sep _ hni]
    decide

/-- C2 amended: for every `.docx` document whose tables all have at least
one row, round-tripping through `convert_file_to_markdown` and the Tier-2
blank-line-split fallback preserves, in original order, every paragraph
whose text is non-blank, contains no blank line, and does not end with a
newline: the rendered parts of exactly those paragraphs appear among the
fallback paragraphs in order, and each rendered part contains the source
paragraph's text (as a suffix after a newline-free prefix).  Whitespace-only
paragraphs (see the counterexample), texts with embedded blank lines or a
trailing newline, and documents with a rowless table (C10) are the
exceptions the code forces. -/
theorem c2_roundtrip_paragraph_texts (w : FileWorld) (doc : DocxDocument)
    (hparse : w.docxParse = .ok doc)
    (htab : ∀ t ∈ doc.tables, t.rows ≠ [])
    (hP : ∀ p ∈ doc.paragraphs, strContainsB p.text "\n\n" = false ∧
      lastChar? p.text.toList ≠ some '\n') :
    List.Sublist
      ((doc.paragraphs.filter (fun p => !(pyStrip p.text == ""))).map renderPara)
      (fallbackParas (convert_file_to_markdown w ".docx")) ∧
    ∀ p ∈ doc.paragraphs, ∃ u, (renderPara p).toList = u ++ p.text.toList := by
  constructor
  case right =>
    intro p _
    obtain ⟨u, hu, _⟩ := toList_renderPara p
    exact ⟨u, hu⟩
  case left =>
    have hmd : convert_file_to_markdown w ".docx" = convert_docx (.ok doc) := by
      simp [convert_file_to_markdown, hparse]
    rw [hmd]
    have hgoodparts : ∀ s ∈ doc.paragraphs.map renderPara,
        ¬ InfixOf nlnl s.toList ∧ lastChar? s.toList ≠ some '\n' := by
      intro s hs
      obtain ⟨p, hp, rfl⟩ := List.mem_map.mp hs
      have h1 := (hP p hp).1
      have hni : ¬ InfixOf nlnl p.text.toList := by
        intro hin
        rw [← toList_nlnl] at hin
        rw [(strContainsB_iff p.text "\n\n").mpr hin] at h1
        cases h1
      exact renderPara_good p hni (hP p hp).2
    have hsub2 : ∀ rest : List String, List.Sublist
        ((doc.paragraphs.filter (fun p => !(pyStrip p.text == ""))).map renderPara)
        (((doc.paragraphs.map renderPara).filter (fun t => !(pyStrip t == ""))) ++ rest) := by
      intro rest
      rw [filter_map_comm]
      exact (filter_mono_map_sublist _ _ _ _
        (fun p _ hf => renderPara_nonblank p hf)).trans (List.sublist_append_left _ _)
    cases htabs : doc.tables with
    | nil =>
      have hbody : docxBody doc = .ok (doc.paragraphs.map renderPara) := by
        unfold docxBody
        rw [htabs]
      have hconv : convert_docx (.ok doc) = pyJoin "\n\n" (doc.paragraphs.map renderPara) := by
        simp [convert_docx, hbody]
      rw [hconv]
      cases hps : doc.paragraphs with
      | nil =>
        simp only [List.filter_nil, List.map_nil]
        exact List.nil_sublist _
      | cons p ps =>
        rw [hps] at hgoodparts hsub2
        have hne : (p :: ps).map renderPara ≠ [] := by simp
        rw [fallbackParas_pyJoin _ hgoodparts hne]
        simpa using hsub2 []
    | cons tb tbs =>
      obtain ⟨tps, htps⟩ := tablesParts_ok doc.tables 0 htab
      have hbody : docxBody doc =
          .ok (doc.paragraphs.map renderPara ++ "\n\n--- Tables ---" :: tps) := by
        unfold docxBody
        rw [htabs] at htps ⊢
        rw [htps]
        rfl
      have hconv : convert_docx (.ok doc) =
          pyJoin "\n\n" (doc.paragraphs.map renderPara ++ "\n\n--- Tables ---" :: tps) := by
        simp [convert_docx, hbody]
      rw [hconv, fallbackParas_pyJoin_append _ _ _ hgoodparts]
      exact hsub2 _

/-- A concrete document for the C2 witness: a heading, an empty paragraph,
a plain paragraph, and a one-column table with a header row and a data row.
-/
def docC2 : DocxDocument :=
  ⟨[⟨"Heading 1", "Data protection"⟩, ⟨"Normal", ""⟩, ⟨"Normal", "We retain data."⟩],
   [⟨[["H"], ["v"]]⟩]⟩

/-- Witness for C2 (amended) at `docC2`. -/
theorem c2_roundtrip_paragraph_texts_witness :
    List.Sublist
      ((docC2.paragraphs.filter (fun p => !(pyStrip p.text == ""))).map renderPara)
      (fallbackParas (convert_file_to_markdown ⟨.ok docC2, .error "x", .error "x"⟩ ".docx")) ∧
    ∀ p ∈ docC2.paragraphs, ∃ u, (renderPara p).toList = u ++ p.text.toList :=
  c2_roundtrip_paragraph_texts ⟨.ok docC2, .error "x", .error "x"⟩ docC2 rfl
    (by decide) (by decide)
